import Mathlib

/-!
Verification of the healing engine of the autonomous test-repair system.

The definitions below are a shallow embedding of `src/agents/healer.py`,
`src/utils/validation.py` and `src/models/healing_model.py`.  Python strings
become Lean `String`s, Python string primitives (`splitlines`, `strip`,
`lstrip`, the `in` operator, `str.replace`, `startswith`, `"\n".join`) are
re-implemented below with Python's semantics, and the external collaborators
(the test-runner subprocess and the LLM call) become oracle parameters.
A Python function that can raise an exception is embedded with an `Except`
or `Option` result, the error constructor standing for the raised exception.
-/

namespace Healer

/-- Python `str.isspace` characters (the set stripped by `str.strip()` /
`str.lstrip()` with no argument): ASCII whitespace plus the Unicode
whitespace code points. -/
def pyIsSpace (c : Char) : Bool :=
  c = ' ' || c = '\t' || c = '\n' || c = '\r' || c.val = 0x0b || c.val = 0x0c ||
  (0x1c ≤ c.val && c.val ≤ 0x1f) || c.val = 0x85 || c.val = 0xa0 ||
  c.val = 0x1680 || (0x2000 ≤ c.val && c.val ≤ 0x200a) || c.val = 0x2028 ||
  c.val = 0x2029 || c.val = 0x202f || c.val = 0x205f || c.val = 0x3000

/-- Line-break characters recognised by Python `str.splitlines`. -/
def pyIsLineBreak (c : Char) : Bool :=
  c = '\n' || c = '\r' || c.val = 0x0b || c.val = 0x0c || c.val = 0x1c ||
  c.val = 0x1d || c.val = 0x1e || c.val = 0x85 || c.val = 0x2028 || c.val = 0x2029

/-- Worker for `pySplitlines`: `acc` holds the current line, reversed.
Python semantics: a terminal line break closes the last line without opening
an empty one, and `"\r\n"` counts as a single break. -/
def splitlinesAux : List Char → List Char → List String
  | [], acc => if acc.isEmpty then [] else [String.mk acc.reverse]
  | c :: rest, acc =>
      if pyIsLineBreak c then
        String.mk acc.reverse ::
          (match rest with
           | c2 :: rest2 =>
               if c = '\r' ∧ c2 = '\n' then splitlinesAux rest2 []
               else splitlinesAux (c2 :: rest2) []
           | [] => [])
      else splitlinesAux rest (c :: acc)

/-- Python `str.splitlines()` (without `keepends`). -/
def pySplitlines (s : String) : List String :=
  splitlinesAux s.data []

/-- Python `str.lstrip()`. -/
def pyLstrip (s : String) : String :=
  String.mk (s.data.dropWhile pyIsSpace)

/-- Python `str.strip()`. -/
def pyStrip (s : String) : String :=
  String.mk (((s.data.dropWhile pyIsSpace).reverse.dropWhile pyIsSpace).reverse)

/-- Substring search on character lists: does `needle` occur contiguously in
the list? -/
def containsSub (needle : List Char) : List Char → Bool
  | [] => needle.isEmpty
  | c :: rest => needle.isPrefixOf (c :: rest) || containsSub needle rest

/-- Python's `needle in hay` operator on strings. -/
def pyIn (needle hay : String) : Bool :=
  containsSub needle.data hay.data

/-- Worker for `pyReplace` with a non-empty pattern `t`: scan left to right,
replacing each non-overlapping occurrence of `t` by `r`.  The second
argument counts characters still to be skipped because they belong to an
occurrence already replaced (keeping the recursion structural). -/
def replaceGo (t r : List Char) : List Char → Nat → List Char
  | [], _ => []
  | _ :: rest, k + 1 => replaceGo t r rest k
  | c :: rest, 0 =>
      if t.isPrefixOf (c :: rest) then r ++ replaceGo t r rest (t.length - 1)
      else c :: replaceGo t r rest 0

/-- Python `s.replace(old, new)` (no count argument: every non-overlapping
occurrence, scanned left to right, is replaced; an empty pattern inserts
`new` around every character). -/
def pyReplace (s old new : String) : String :=
  match old.data with
  | [] => String.mk (new.data ++ s.data.flatMap (fun c => c :: new.data))
  | _ :: _ => String.mk (replaceGo old.data new.data s.data 0)

/-! ## Data model (`src/models/healing_model.py`) -/

/-- `FailureType` enumeration. -/
inductive FailureType
  | LOCATOR_NOT_FOUND
  | LOCATOR_DRIFT
  | TIMEOUT
  | ASSERTION_FAILED
  | ENVIRONMENT_ISSUE
  | POTENTIAL_APP_DEFECT
  | JAVASCRIPT_ERROR
  | UNKNOWN
  deriving DecidableEq, Repr

/-- `HealingAction` dataclass. -/
structure HealingAction where
  original_code : String
  fixed_code : String
  description : String
  deriving DecidableEq, Repr

/-- `Evidence` dataclass. -/
structure Evidence where
  error_log : String
  screenshot_path : Option String := none
  dom_snippet : Option String := none
  deriving DecidableEq, Repr

/-- `HealingDecision` dataclass.  `confidence_score` (a Python float holding
values from the classifier and the parsed JSON) is embedded as `Rat`; the
wall-clock `timestamp` field is omitted. -/
structure HealingDecision where
  test_file : String
  failure_type : FailureType
  failure_summary : String
  evidence : Evidence
  hypothesis : String
  confidence_score : Rat
  reasoning_steps : List String
  action_taken : HealingAction
  verification_passed : Bool := false
  verification_log : Option String := none
  deriving DecidableEq, Repr

/-! ## Heuristic classifier (`classify_failure_heuristic`) -/

/-- `classify_failure_heuristic(logs)`.  The Python parameter is a string that
may also be `None`; `if not logs` is true for `None` and for the empty
string, so the argument is embedded as `Option String`.  The rationale
strings are the source's with the quote characters around marker names
elided; no claim depends on the rationale text beyond which rule produced
it. -/
def classify_failure_heuristic (logs : Option String) : FailureType × Rat × String :=
  if logs = none ∨ logs = some "" then
    (FailureType.UNKNOWN, 0, "No logs available")
  else
    let s := logs.getD ""
    if pyIn "TimeoutError" s || pyIn "waiting for selector" s ||
        pyIn "Test execution timed out" s then
      (FailureType.TIMEOUT, 1, "Detected TimeoutError or waiting-for-selector in logs")
    else if pyIn "TargetClosedError" s || pyIn "browser has been closed" s then
      (FailureType.ENVIRONMENT_ISSUE, 1, "Detected TargetClosedError or browser crash")
    else if pyIn "expect(" s && pyIn "received" s then
      (FailureType.ASSERTION_FAILED, 1, "Detected expect(...) assertion failure")
    else if pyIn "Error: strict mode violation" s then
      (FailureType.LOCATOR_DRIFT, 0.9, "Strict mode violation: multiple elements match selector")
    else if pyIn "locator resolved to 0 elements" s then
      if pyIn "Did you mean" s then
        (FailureType.LOCATOR_DRIFT, 0.8, "Locator failed but Playwright suggested content alternative")
      else
        (FailureType.LOCATOR_NOT_FOUND, 0.7, "Locator resolved to 0 elements")
    else if pyIn "net::ERR_ABORTED" s || pyIn "404" s || pyIn "500" s then
      (FailureType.POTENTIAL_APP_DEFECT, 0.8, "Detected network error or HTTP failure status code")
    else if pyIn "ReferenceError" s || pyIn "TypeError" s then
      (FailureType.JAVASCRIPT_ERROR, 0.7, "Detected JavaScript runtime error in logs")
    else
      (FailureType.UNKNOWN, 0, "No specific regex pattern matched")

/-! ## Diagnosis planner (`analyze_and_plan`) -/

/-- A JSON value that the reasoner may return either as a string or as a list
of strings (the code fields of `action_taken`). -/
inductive StrOrList
  | str (s : String)
  | list (l : List String)
  deriving DecidableEq, Repr

/-- Sanitisation applied to list-valued code fields:
`"\n".join(value)` when the value is a list, identity on strings. -/
def StrOrList.toCode : StrOrList → String
  | .str s => s
  | .list l => String.intercalate "\n" l

/-- The successfully parsed payload of the reasoner response.  Optional
fields mirror `data.get(key, default)`; the `action_taken` fields are
mandatory because `HealingAction(**action_data)` raises (and lands in the
`except` branch) when any of them is missing.  The `failure_type` string is
embedded already decoded to the enumeration.

Scope of this oracle: the code fields cover the string and list-of-strings
values (a list of non-strings raises inside `"\n".join` within the `try`
and is part of the `Except.error` case).  `HealingAction(**action_data)`
itself accepts values of any JSON type without checking, so other values
can reach `apply_fix`: a falsy one (`0`, `None`, `False`) is caught by
`if not target or not replacement` and behaves exactly like the empty
string modelled here, while a truthy non-string (e.g. `5`) would make
`target in current_code` raise `TypeError` outside any `try`.  That escape
is not represented by this oracle, and no theorem below asserts anything
about which exceptions a session with such a response can propagate. -/
structure LLMData where
  failure_type : Option FailureType := none
  failure_summary : Option String := none
  hypothesis : Option String := none
  confidence_score : Option Rat := none
  reasoning_steps : Option (List String) := none
  original_code : StrOrList
  fixed_code : StrOrList
  description : String
  deriving DecidableEq, Repr

/-- `analyze_and_plan(test_file, code, evidence)`.  The whole `try` block —
the external chat-completion call, JSON extraction and parsing, and the
construction of the decision — is embedded as the oracle argument `llm`:
`Except.error e` is any exception raised inside the `try`, with `e` the
exception text interpolated into the fallback summary. -/
def analyze_and_plan (test_file code : String) (evidence : Evidence)
    (llm : Except String LLMData) : HealingDecision :=
  let h := classify_failure_heuristic (some evidence.error_log)
  match llm with
  | .error e =>
      { test_file := test_file
        failure_type := FailureType.UNKNOWN
        failure_summary := "Agent failed to analyze: " ++ e
        evidence := evidence
        hypothesis := "Fallback: Manual intervention needed"
        confidence_score := 0
        reasoning_steps := ["LLM call failed"]
        action_taken := ⟨"", "", "No action"⟩ }
  | .ok data =>
      let final_type := data.failure_type.getD FailureType.UNKNOWN
      let final_type :=
        if h.2.1 > 0.8 ∧ final_type = FailureType.UNKNOWN then h.1 else final_type
      { test_file := test_file
        failure_type := final_type
        failure_summary := data.failure_summary.getD "No summary provided"
        evidence := evidence
        hypothesis := data.hypothesis.getD "No hypothesis"
        confidence_score := data.confidence_score.getD 0
        reasoning_steps := data.reasoning_steps.getD []
        action_taken :=
          ⟨data.original_code.toCode, data.fixed_code.toCode, data.description⟩ }

/-! ## Patch applier (`apply_fix`) -/

/-- `normalize_lines(text)` from `apply_fix`:
`[line.strip() for line in text.splitlines() if line.strip()]`. -/
def normalize_lines (text : String) : List String :=
  ((pySplitlines text).map pyStrip).filter (fun l => l ≠ "")

/-- One window comparison of the sliding-window search: the `target.length`
lines of `code_lines` starting at `i`, each stripped. -/
def windowAt (code_lines : List String) (len i : Nat) : List String :=
  ((code_lines.drop i).take len).map pyStrip

/-- The sliding-window search of `apply_fix`: the first `i` in
`range(len(code_lines) - len(target_lines) + 1)` whose stripped window equals
`target_lines`.  The fuel is that Python range length (empty when the target
has more lines than the code, matching Python's negative range). -/
def findWindowAux (code_lines target : List String) : Nat → Nat → Option Nat
  | _, 0 => none
  | i, fuel + 1 =>
      if windowAt code_lines target.length i = target then some i
      else findWindowAux code_lines target (i + 1) fuel

/-- Entry point of the sliding-window search at `i = 0`. -/
def findWindow (code_lines target : List String) : Option Nat :=
  findWindowAux code_lines target 0 (code_lines.length + 1 - target.length)

/-- The leading-whitespace prefix computation of `apply_fix`:
`line[:len(line) - len(line.lstrip())]`. -/
def base_indent_of (line : String) : String :=
  String.mk (line.data.take (line.data.length - (pyLstrip line).data.length))

/-- `apply_fix(file_path, current_code, decision)`.  The `file_path`
parameter of the source is never used by the function body and is omitted;
the decision is consumed only through `decision.action_taken`, passed here
directly.  The result is `none` exactly when the Python code raises
`IndexError` at `code_lines[first_line_idx]` — reachable when the normalised
target is empty (a whitespace-only target) and the file has no lines. -/
def apply_fix (current_code : String) (action : HealingAction) : Option String :=
  let target := action.original_code
  let replacement := action.fixed_code
  if target = "" ∨ replacement = "" then
    some current_code
  else if pyIn target current_code then
    some (pyReplace current_code target replacement)
  else
    let target_lines := normalize_lines target
    let code_lines := pySplitlines current_code
    match findWindow code_lines target_lines with
    | none => some current_code
    | some i =>
        match code_lines.get? i with
        | none => none
        | some first_line =>
            let base_indent := base_indent_of first_line
            let indented := (pySplitlines replacement).map
              (fun r => base_indent ++ pyLstrip r)
            some (String.intercalate "\n"
              (code_lines.take i ++ indented ++ code_lines.drop (i + target_lines.length)))

/-! ## Path validation (`src/utils/validation.py`) -/

/-- The reasons `validate_file_path` raises `ValidationError`. -/
inductive ValidationError
  | emptyPath
  | outsideAllowed
  deriving DecidableEq, Repr

/-- Python `s.split(sep="/")`: every slash separates, consecutive slashes
produce empty components, and the final accumulator is always emitted. -/
def splitSlashAux : List Char → List Char → List String
  | [], acc => [String.mk acc.reverse]
  | c :: rest, acc =>
      if c = '/' then String.mk acc.reverse :: splitSlashAux rest []
      else splitSlashAux rest (c :: acc)

/-- `posixpath.normpath(path)`: collapse repeated slashes, drop `"."`
components, resolve `".."` against the preceding component (dropping it at
an absolute root, keeping it when the path is relative and nothing precedes
it), and keep exactly two leading slashes when the input starts with
exactly two. -/
def normpath (path : String) : String :=
  if path = "" then "."
  else
    let initial_slashes : Nat :=
      if "/".data.isPrefixOf path.data then
        if "//".data.isPrefixOf path.data ∧ ¬ "///".data.isPrefixOf path.data then 2
        else 1
      else 0
    let comps := splitSlashAux path.data []
    let new_comps := comps.foldl
      (fun acc comp =>
        if comp = "" ∨ comp = "." then acc
        else if comp ≠ ".." ∨ (initial_slashes = 0 ∧ acc = []) ∨
            acc.getLast? = some ".." then
          acc ++ [comp]
        else if acc ≠ [] then acc.dropLast
        else acc)
      ([] : List String)
    let joined :=
      String.mk (List.replicate initial_slashes '/') ++
        String.intercalate "/" new_comps
    if joined = "" then "." else joined

/-- `os.path.abspath(p)` relative to the working directory `cwd` (an
absolute path, as `os.getcwd()` returns): `normpath(join(cwd, p))` — an
absolute `p` is normalised as is, a relative one is joined onto `cwd`
first (`os.path.join` inserts a slash only when `cwd` does not already end
with one). -/
def abspath (cwd p : String) : String :=
  if "/".data.isPrefixOf p.data then normpath p
  else if cwd.data.getLast? = some '/' then normpath (cwd ++ p)
  else normpath (cwd ++ "/" ++ p)

/-- `validate_file_path(file_path, allowed_dirs)`.  `none` for `allowed_dirs`
is the Python default `["tests/generated"]`.  The `os.path.commonpath` call
of the source never raises here because both compared paths are absolute;
the admission test is the subsequent `startswith` check.  `Except.error` is
the raised `ValidationError` (its message text is not modelled). -/
def validate_file_path (cwd file_path : String)
    (allowed_dirs : Option (List String)) : Except ValidationError String :=
  if file_path = "" then
    .error .emptyPath
  else
    let allowed := allowed_dirs.getD ["tests/generated"]
    let abs_path := abspath cwd file_path
    let is_allowed := allowed.any
      (fun d => (abspath cwd d).data.isPrefixOf abs_path.data)
    if is_allowed then .ok abs_path else .error .outsideAllowed

/-! ## Orchestrator (`attempt_healing`) -/

/-- The result object of one `run_test` invocation: a completed
`subprocess.run` or one of the synthesised timeout / missing-runner results
(both of which carry `returncode = 1`). -/
structure RunResult where
  returncode : Int
  stdout : String
  stderr : String
  deriving DecidableEq, Repr

/-- `gather_evidence(test_file, result)`:
`logs = result.stderr if result.stderr else result.stdout`.  The screenshot
lookup scans the filesystem for the latest `.png`; it is embedded as absent
(no screenshot on disk), which no claim depends on. -/
def gather_evidence (result : RunResult) : Evidence :=
  { error_log := if result.stderr ≠ "" then result.stderr else result.stdout
    screenshot_path := none
    dom_snippet := none }

/-- Ghost record of one healing-loop attempt: the `current_code` passed to
`apply_fix`, and the content written to the file (`none` for a no-op
attempt). -/
structure AttemptRec where
  input : String
  wrote : Option String
  deriving DecidableEq, Repr

/-- Observable session state: the timeline step names in order (the detail
strings of `add_step` are not modelled), the number of test-runner
invocations so far, the contents written to the target file in order, the
current on-disk content, the number of `emit_artifacts` calls, and the ghost
attempt records. -/
structure SessionTrace where
  steps : List String := []
  runCount : Nat := 0
  writes : List String := []
  fileContent : String := ""
  artifacts : Nat := 0
  attempts : List AttemptRec := []
  deriving DecidableEq, Repr

/-- Exceptions `attempt_healing` propagates to its caller within the
modelled oracle: the `ValidationError` of path validation and the
`IndexError` of the patch fallback on an empty file.  (A reasoner response
outside the `LLMData` oracle — a truthy non-string code field — would add a
`TypeError` escape from `apply_fix`; see the `LLMData` doc comment.) -/
inductive PyExc
  | validationError (e : ValidationError)
  | indexError
  deriving DecidableEq, Repr

/-- The `for attempt in range(max_retries)` loop of `attempt_healing`.
`runs k` is the result of the `k`-th test-runner invocation of the session
(the initial run is `k = 0`); `llm k` is the outcome of the reasoner
try-block of attempt `k`.  `remaining` counts loop iterations still
available.  `result` is the latest run result (used for evidence).
Returns the function's return string together with the trace, or the
propagated exception. -/
def healLoop (validated_path : String) (runs : Nat → RunResult)
    (llm : Nat → Except String LLMData) :
    Nat → Nat → String → RunResult → SessionTrace →
    Except PyExc (String × SessionTrace)
  | 0, _, _, _, tr =>
      .ok ("Healing failed to make test pass.",
           { tr with steps := tr.steps ++ ["HealingFailed"] })
  | remaining + 1, attempt, current_code, result, tr =>
      let tr := { tr with
        steps := tr.steps ++ ["HealingAttempt", "EvidenceCollected"] }
      let evidence := gather_evidence result
      let decision := analyze_and_plan validated_path current_code evidence (llm attempt)
      let tr := { tr with steps := tr.steps ++ ["AnalysisComplete"] }
      match apply_fix current_code decision.action_taken with
      | none => .error .indexError
      | some new_code =>
          if new_code = current_code then
            healLoop validated_path runs llm remaining (attempt + 1) current_code result
              { tr with
                steps := tr.steps ++ ["ActionFailed"]
                artifacts := tr.artifacts + 1
                attempts := tr.attempts ++ [(⟨current_code, none⟩ : AttemptRec)] }
          else
            let tr := { tr with
              steps := tr.steps ++ ["SelectorUpdated"]
              fileContent := new_code
              writes := tr.writes ++ [new_code]
              attempts := tr.attempts ++ [(⟨current_code, some new_code⟩ : AttemptRec)] }
            let verify := runs tr.runCount
            let tr := { tr with runCount := tr.runCount + 1 }
            if verify.returncode = 0 then
              .ok ("\nSUCCESS: Test healed! \nReasoning: " ++ decision.hypothesis,
                   { tr with
                     steps := tr.steps ++ ["Verification"]
                     artifacts := tr.artifacts + 1 })
            else
              healLoop validated_path runs llm remaining (attempt + 1) new_code verify
                { tr with
                  steps := tr.steps ++ ["Verification", "Retry"]
                  artifacts := tr.artifacts + 1 }

/-- `attempt_healing(test_file, max_retries=1)`.  `cwd` is the working
directory used by path resolution; `fileExists` is the filesystem predicate
`Path(...).exists()`; `fileContent` is what reading the validated file
yields; `runs` and `llm` are the external oracles.  `Except.error` is an
exception escaping the function. -/
def attempt_healing (cwd test_file : String) (fileExists : String → Bool)
    (fileContent : String) (runs : Nat → RunResult)
    (llm : Nat → Except String LLMData) (max_retries : Nat := 1) :
    Except PyExc (String × SessionTrace) :=
  let tr : SessionTrace := { steps := ["Start"], fileContent := fileContent }
  match validate_file_path cwd test_file none with
  | .error e => .error (.validationError e)
  | .ok validated_path =>
      if ¬ fileExists validated_path then
        .ok ("Error: File not found " ++ validated_path,
             { tr with steps := tr.steps ++ ["Error"] })
      else
        let result := runs 0
        let tr := { tr with runCount := 1 }
        if result.returncode = 0 then
          .ok ("Test passed (No healing needed).",
               { tr with steps := tr.steps ++ ["InitialRun"] })
        else
          let tr := { tr with steps := tr.steps ++ ["FailureDetected"] }
          healLoop validated_path runs llm max_retries 0 fileContent result tr

/-- Recogniser for the two success return strings of `attempt_healing`
("Test passed (No healing needed)." from the initial run, and the
"\nSUCCESS: Test healed! ..." string from a passing verification); the
failure strings ("Healing failed to make test pass." and
"Error: File not found ...") are not of this shape. -/
def isSuccess (s : String) : Bool :=
  s = "Test passed (No healing needed)." ||
  "\nSUCCESS".data.isPrefixOf s.data

/-- Ghost predicate for the amended C4: a list of attempt records starting
from content `cur` is *cumulative* when each attempt's `apply_fix` input is
the state left by the previous attempt — the written content if the previous
attempt wrote, otherwise that attempt's own (unchanged) input — never an
earlier state. -/
def cumulativeFrom (cur : String) : List AttemptRec → Bool
  | [] => true
  | a :: rest => (a.input == cur) && cumulativeFrom (a.wrote.getD cur) rest

/-- The writes a session performed, extracted from the orchestrator result
(a propagated exception discards the local trace). -/
def sessionWrites (r : Except PyExc (String × SessionTrace)) : List String :=
  match r with
  | .ok (_, tr) => tr.writes
  | .error _ => []

/-! ## General lemmas about the embedded primitives -/

/-- A needle occurs in any haystack that ends with it. -/
theorem containsSub_append_self (pre n : List Char) :
    containsSub n (pre ++ n) = true := by
  induction pre with
  | nil =>
      cases n with
      | nil => rfl
      | cons c rest =>
          simp only [List.nil_append, containsSub, Bool.or_eq_true]
          exact Or.inl (by simp [List.isPrefixOf_iff_prefix])
  | cons c pre ih =>
      simp only [List.cons_append, containsSub, Bool.or_eq_true]
      exact Or.inr ih

/-- The sliding-window search fails when every consulted window differs from
the target. -/
theorem findWindowAux_eq_none (cl tl : List String) :
    ∀ (fuel start : Nat),
      (∀ j, start ≤ j → j < start + fuel → windowAt cl tl.length j ≠ tl) →
      findWindowAux cl tl start fuel = none := by
  intro fuel
  induction fuel with
  | zero => intro start _; rfl
  | succ n ih =>
      intro start h
      have hstart : windowAt cl tl.length start ≠ tl :=
        h start (Nat.le_refl _) (by omega)
      simp only [findWindowAux, if_neg hstart]
      exact ih (start + 1) (fun j h1 h2 => h j (by omega) (by omega))

/-- The sliding-window search returns the first matching position. -/
theorem findWindowAux_eq_some (cl tl : List String) (i : Nat)
    (hmatch : windowAt cl tl.length i = tl)
    (hfirst : ∀ j < i, windowAt cl tl.length j ≠ tl) :
    ∀ (fuel start : Nat), start ≤ i → i < start + fuel →
      findWindowAux cl tl start fuel = some i := by
  intro fuel
  induction fuel with
  | zero => intro start _ h2; omega
  | succ n ih =>
      intro start h1 h2
      rcases Nat.eq_or_lt_of_le h1 with heq | hlt
      · subst heq
        simp only [findWindowAux, if_pos hmatch]
      · have : windowAt cl tl.length start ≠ tl := hfirst start hlt
        simp only [findWindowAux, if_neg this]
        exact ih (start + 1) hlt (by omega)

/-- The slice `line[:len(line) - len(line.lstrip())]` is exactly the longest
leading-whitespace prefix of the line. -/
theorem base_indent_of_eq_takeWhile (line : String) :
    base_indent_of line = String.mk (line.data.takeWhile pyIsSpace) := by
  show String.mk (line.data.take (line.data.length - (line.data.dropWhile pyIsSpace).length))
      = String.mk (line.data.takeWhile pyIsSpace)
  set tw := line.data.takeWhile pyIsSpace with htw
  set dw := line.data.dropWhile pyIsSpace with hdw
  have hsplit : tw ++ dw = line.data := List.takeWhile_append_dropWhile pyIsSpace line.data
  have hlen : line.data.length - dw.length = tw.length := by
    have h2 := congrArg List.length hsplit
    simp only [List.length_append] at h2
    omega
  rw [hlen, ← hsplit, List.take_left]

/-! ## C9: classifier rule order -/

/-- C9: the classifier consults the empty/absent-log rule first, returning
`UNKNOWN` with confidence 0.0 for an absent or empty log; for every
non-empty log containing one of the timeout markers — whatever other
markers (such as the `expect(`/`received` assertion signature) it also
contains — the first matching rule wins and the log is classified `TIMEOUT`
with confidence 1.0. -/
theorem classify_failure_heuristic_order :
    (classify_failure_heuristic none = (FailureType.UNKNOWN, 0, "No logs available") ∧
     classify_failure_heuristic (some "") = (FailureType.UNKNOWN, 0, "No logs available")) ∧
    ∀ s : String, s ≠ "" →
      (pyIn "TimeoutError" s || pyIn "waiting for selector" s ||
        pyIn "Test execution timed out" s) = true →
      classify_failure_heuristic (some s) =
        (FailureType.TIMEOUT, 1, "Detected TimeoutError or waiting-for-selector in logs") := by
  refine ⟨⟨rfl, rfl⟩, ?_⟩
  intro s hs hmark
  have hne : ¬((some s : Option String) = none ∨ (some s : Option String) = some "") := by
    simp [hs]
  unfold classify_failure_heuristic
  rw [if_neg hne]
  simp only [Option.getD_some, hmark, if_pos]

/-- Witness for C9 at a log holding both a timeout marker and the assertion
signature. -/
theorem classify_failure_heuristic_order_witness :
    classify_failure_heuristic (some "TimeoutError: expect(received).toBe(expected)") =
      (FailureType.TIMEOUT, 1, "Detected TimeoutError or waiting-for-selector in logs") :=
  classify_failure_heuristic_order.2 "TimeoutError: expect(received).toBe(expected)"
    (by decide) (by decide)

/-! ## C8: planner degrades on reasoning failure -/

/-- C8: when the external reasoning call or the parsing of its response
raises (oracle outcome `Except.error e`), `analyze_and_plan` does not
propagate the failure: it returns a degraded decision with failure type
`UNKNOWN`, confidence 0.0, an empty action, and the failure text recorded in
`failure_summary` and `reasoning_steps`. -/
theorem analyze_and_plan_degrades_on_failure
    (test_file code : String) (evidence : Evidence) (e : String) :
    (analyze_and_plan test_file code evidence (.error e)).failure_type = FailureType.UNKNOWN ∧
    (analyze_and_plan test_file code evidence (.error e)).confidence_score = 0 ∧
    (analyze_and_plan test_file code evidence (.error e)).action_taken = ⟨"", "", "No action"⟩ ∧
    (analyze_and_plan test_file code evidence (.error e)).failure_summary =
      "Agent failed to analyze: " ++ e ∧
    pyIn e (analyze_and_plan test_file code evidence (.error e)).failure_summary = true ∧
    (analyze_and_plan test_file code evidence (.error e)).reasoning_steps = ["LLM call failed"] := by
  refine ⟨rfl, rfl, rfl, rfl, ?_, rfl⟩
  show pyIn e ("Agent failed to analyze: " ++ e) = true
  unfold pyIn
  rw [String.data_append]
  exact containsSub_append_self _ _

/-! ## C6: no-op on empty fields or no match -/

/-- C6: `apply_fix` returns `current_code` unchanged — and in particular
never raises — when `original_code` or `fixed_code` is empty, or when the
target occurs neither verbatim (Python `in`) nor at any window position of
the whitespace-normalised sliding-window search. -/
theorem apply_fix_noop_on_no_match (code t r d : String)
    (h : t = "" ∨ r = "" ∨
      (pyIn t code = false ∧
        ∀ i < (pySplitlines code).length + 1 - (normalize_lines t).length,
          windowAt (pySplitlines code) (normalize_lines t).length i ≠ normalize_lines t)) :
    apply_fix code ⟨t, r, d⟩ = some code := by
  unfold apply_fix
  by_cases htr : t = "" ∨ r = ""
  · rw [if_pos htr]
  · rw [if_neg htr]
    rcases h with h | h | ⟨hin, hwin⟩
    · exact absurd (Or.inl h) htr
    · exact absurd (Or.inr h) htr
    · rw [hin]
      simp only [Bool.false_eq_true, if_neg, ite_false]
      have : findWindow (pySplitlines code) (normalize_lines t) = none := by
        unfold findWindow
        exact findWindowAux_eq_none _ _ _ 0
          (fun j _ h2 => hwin j (by omega))
      rw [this]

/-- Witness for C6: a target absent from the code both verbatim and
normalised. -/
theorem apply_fix_noop_on_no_match_witness :
    apply_fix "hello" ⟨"x", "y", "d"⟩ = some "hello" :=
  apply_fix_noop_on_no_match "hello" "x" "y" "d"
    (Or.inr (Or.inr ⟨by decide, by decide⟩))

/-! ## C5: a no-op attempt neither writes nor re-runs -/

/-- C5: when an attempt's patch is a no-op (`apply_fix` returns the current
code unchanged), the loop records an `ActionFailed` timeline step, persists
the decision artifacts, and continues to the next attempt with one fewer
remaining — with the file content, the write history and the runner
invocation count of the session all untouched by that attempt. -/
theorem healLoop_noop_attempt (validated_path : String) (runs : Nat → RunResult)
    (llm : Nat → Except String LLMData) (remaining attempt : Nat)
    (current_code : String) (result : RunResult) (tr : SessionTrace)
    (h : apply_fix current_code
      (analyze_and_plan validated_path current_code (gather_evidence result)
        (llm attempt)).action_taken = some current_code) :
    healLoop validated_path runs llm (remaining + 1) attempt current_code result tr =
      healLoop validated_path runs llm remaining (attempt + 1) current_code result
        { tr with
          steps := tr.steps ++
            ["HealingAttempt", "EvidenceCollected", "AnalysisComplete", "ActionFailed"]
          artifacts := tr.artifacts + 1
          attempts := tr.attempts ++ [(⟨current_code, none⟩ : AttemptRec)] } := by
  simp only [healLoop, h, if_pos, List.append_assoc, List.cons_append, List.nil_append]

/-- Witness for C5: a degraded decision (empty action) makes the attempt a
no-op, which consumes the attempt without writing or re-running. -/
theorem healLoop_noop_attempt_witness :
    apply_fix "q();"
      (analyze_and_plan "p.ts" "q();" (gather_evidence ⟨1, "", "e"⟩)
        ((fun _ : Nat => (Except.error "boom" : Except String LLMData)) 0)).action_taken
      = some "q();" ∧
    healLoop "p.ts" (fun _ => ⟨1, "", "e"⟩) (fun _ => Except.error "boom")
        (0 + 1) 0 "q();" ⟨1, "", "e"⟩ {} =
      healLoop "p.ts" (fun _ => ⟨1, "", "e"⟩) (fun _ => Except.error "boom")
        0 (0 + 1) "q();" ⟨1, "", "e"⟩
        { steps := ["HealingAttempt", "EvidenceCollected", "AnalysisComplete", "ActionFailed"]
          artifacts := 1
          attempts := [(⟨"q();", none⟩ : AttemptRec)] } :=
  ⟨rfl, healLoop_noop_attempt "p.ts" (fun _ => ⟨1, "", "e"⟩) (fun _ => Except.error "boom")
    0 0 "q();" ⟨1, "", "e"⟩ {} rfl⟩

/-! ## C1: the exact-match branch replaces every occurrence -/

/-- Skipping `k` characters in the replacement scan is dropping them. -/
theorem replaceGo_skip (t r : List Char) :
    ∀ (s : List Char) (k : Nat), replaceGo t r s k = replaceGo t r (s.drop k) 0 := by
  intro s
  induction s with
  | nil => intro k; cases k <;> rfl
  | cons c rest ih =>
      intro k
      cases k with
      | zero => rfl
      | succ k => simpa [replaceGo] using ih k

/-- `str.replace` recurrence: on a string whose first occurrence of the
(non-empty) pattern `t` starts right after `pre`, the scan keeps `pre`
intact, replaces that occurrence, and continues on the remainder — so later
occurrences are replaced as well. -/
theorem replaceGo_first_occurrence (t r : List Char) (ht : t ≠ []) :
    ∀ (pre suf : List Char),
      (∀ i < pre.length, ¬ t.isPrefixOf ((pre ++ t ++ suf).drop i)) →
      replaceGo t r (pre ++ t ++ suf) 0 = pre ++ r ++ replaceGo t r suf 0 := by
  intro pre
  induction pre with
  | nil =>
      intro suf _
      cases hcase : t with
      | nil => exact absurd hcase ht
      | cons c t' =>
          have hpref : (c :: t').isPrefixOf ((c :: t') ++ suf) = true := by
            rw [List.isPrefixOf_iff_prefix]
            exact List.prefix_append _ _
          subst hcase
          simp only [List.nil_append, List.cons_append, replaceGo, List.append_eq]
          rw [if_pos (by simpa using hpref)]
          rw [replaceGo_skip]
          simp only [List.length_cons, Nat.add_sub_cancel]
          rw [List.drop_left' (by rfl : t'.length = t'.length)]
  | cons a pre' ih =>
      intro suf h
      have h0 : ¬ t.isPrefixOf (a :: (pre' ++ t ++ suf)) := by
        have := h 0 (by simp)
        simpa using this
      have hrec := ih suf (fun i hi => by
        have := h (i + 1) (by simpa using Nat.succ_lt_succ hi)
        simpa using this)
      cases t with
      | nil => exact absurd rfl ht
      | cons c t' =>
          simp only [List.cons_append, List.append_assoc] at hrec ⊢
          rw [replaceGo]
          simp only [List.append_assoc] at h0
          rw [if_neg (by simpa using h0)]
          rw [hrec]

/-- A needle occurs in any haystack that contains it contiguously. -/
theorem containsSub_append_mid (pre n suf : List Char) :
    containsSub n (pre ++ n ++ suf) = true := by
  induction pre with
  | nil =>
      simp only [List.nil_append]
      cases hn : n ++ suf with
      | nil =>
          have : n = [] := by
            cases n with
            | nil => rfl
            | cons c l => simp at hn
          simp [containsSub, this]
      | cons c rest =>
          simp only [containsSub, Bool.or_eq_true]
          left
          rw [List.isPrefixOf_iff_prefix, ← hn]
          exact List.prefix_append n suf
  | cons a pre' ih =>
      simp only [List.cons_append, List.append_assoc, containsSub, Bool.or_eq_true]
      right
      simpa [List.append_assoc] using ih

/-- `pyReplace` with a non-empty pattern is the left-to-right scan
`replaceGo`. -/
theorem pyReplace_data (s t r : String) (ht : t.data ≠ []) :
    (pyReplace s t r).data = replaceGo t.data r.data s.data 0 := by
  obtain ⟨c, t', hcase⟩ := List.exists_cons_of_ne_nil ht
  unfold pyReplace
  rw [hcase]

/-- C1 (amended): on the exact-match branch, `apply_fix` replaces the first
occurrence of `original_code` in place — everything before it unchanged —
and then continues the replacement scan on the remainder of the string, so
every later non-overlapping occurrence is replaced by `fixed_code` too. -/
theorem apply_fix_exact_replaces_every_occurrence
    (pre t suf r d : String) (ht : t ≠ "") (hr : r ≠ "")
    (hfirst : ∀ i < pre.data.length,
      ¬ t.data.isPrefixOf ((pre.data ++ t.data ++ suf.data).drop i)) :
    apply_fix (pre ++ t ++ suf) ⟨t, r, d⟩ = some (pre ++ r ++ pyReplace suf t r) := by
  have hdata : (pre ++ t ++ suf).data = pre.data ++ t.data ++ suf.data := by
    simp [String.data_append]
  have htd : t.data ≠ [] := by
    intro hnil
    apply ht
    apply String.ext
    exact hnil
  have hin : pyIn t (pre ++ t ++ suf) = true := by
    unfold pyIn
    rw [hdata]
    exact containsSub_append_mid pre.data t.data suf.data
  unfold apply_fix
  rw [if_neg (by simp [ht, hr]), if_pos (by simpa using hin)]
  congr 1
  apply String.ext
  rw [pyReplace_data _ _ _ htd, hdata,
    replaceGo_first_occurrence t.data r.data htd pre.data suf.data hfirst]
  simp [String.data_append, pyReplace_data _ _ _ htd]

/-- C1 (counterexample): with two occurrences of the target, the code
replaces both — Python `str.replace` with no count replaces every
occurrence, not only the first as the claim states. -/
theorem apply_fix_counterexample_second_occurrence :
    apply_fix "a a" ⟨"a", "b", "swap"⟩ = some "b b" ∧ ("b b" : String) ≠ "b a" := by
  exact ⟨rfl, by decide⟩

/-- Witness for the amended C1: both occurrences of `ab` are replaced. -/
theorem apply_fix_exact_replaces_every_occurrence_witness :
    apply_fix ("x " ++ "ab" ++ " ab y") ⟨"ab", "Z", "d"⟩ =
      some ("x " ++ "Z" ++ pyReplace " ab y" "ab" "Z") :=
  apply_fix_exact_replaces_every_occurrence "x " "ab" " ab y" "Z" "d"
    (by decide) (by decide) (by decide)

/-! ## C7: the normalised sliding-window match re-indents the replacement -/

/-- C7: when the target is found only by the whitespace-normalised
sliding-window match, with first matching window position `i`, `apply_fix`
keeps the lines before and after the window unchanged, removes exactly the
window's lines, and splices in the replacement block with every replacement
line re-indented by the leading-whitespace prefix (`takeWhile` of
whitespace) of the window's first original line — the replacement lines'
own leading whitespace discarded (`dropWhile`), their trailing content
preserved. -/
theorem apply_fix_normalized_window_reindents
    (code t r d : String) (i : Nat)
    (ht : t ≠ "") (hr : r ≠ "") (hexact : pyIn t code = false)
    (htl : normalize_lines t ≠ [])
    (hmatch : windowAt (pySplitlines code) (normalize_lines t).length i = normalize_lines t)
    (hfirst : ∀ j < i,
      windowAt (pySplitlines code) (normalize_lines t).length j ≠ normalize_lines t) :
    ∃ first_line, (pySplitlines code).get? i = some first_line ∧
      apply_fix code ⟨t, r, d⟩ =
        some (String.intercalate "\n"
          ((pySplitlines code).take i ++
           (pySplitlines r).map (fun rl =>
             String.mk (first_line.data.takeWhile pyIsSpace) ++
             String.mk (rl.data.dropWhile pyIsSpace)) ++
           (pySplitlines code).drop (i + (normalize_lines t).length))) := by
  have hwlen := congrArg List.length hmatch
  simp only [windowAt, List.length_map, List.length_take, List.length_drop] at hwlen
  have hi : i < (pySplitlines code).length := by
    by_contra hcon
    push_neg at hcon
    have hdrop : (pySplitlines code).drop i = [] := List.drop_eq_nil_of_le hcon
    rw [windowAt, hdrop] at hmatch
    simp at hmatch
    exact htl hmatch
  have hiL : i + (normalize_lines t).length ≤ (pySplitlines code).length := by
    have hne : (normalize_lines t).length ≠ 0 := by
      intro h0
      exact htl (List.eq_nil_of_length_eq_zero h0)
    omega
  refine ⟨(pySplitlines code).get ⟨i, hi⟩, List.get?_eq_get hi, ?_⟩
  have hfw : findWindow (pySplitlines code) (normalize_lines t) = some i :=
    findWindowAux_eq_some _ _ i hmatch hfirst _ 0 (Nat.zero_le i) (by omega)
  unfold apply_fix
  dsimp only
  rw [if_neg (by simp [ht, hr]), if_neg (by simp [hexact]), hfw]
  dsimp only
  rw [List.get?_eq_get hi]
  dsimp only
  simp only [base_indent_of_eq_takeWhile]
  rfl

/-- Witness for C7: a tab-indented target matches a space-indented line only
after normalisation, and the replacement inherits the two-space indent of
the matched line while its own three-space indent is discarded. -/
theorem apply_fix_normalized_window_reindents_witness :
    ∃ first_line, (pySplitlines "  foo\n  bar").get? 1 = some first_line ∧
      apply_fix "  foo\n  bar" ⟨"\tbar", "   baz  q", "d"⟩ =
        some (String.intercalate "\n"
          ((pySplitlines "  foo\n  bar").take 1 ++
           (pySplitlines "   baz  q").map (fun rl =>
             String.mk (first_line.data.takeWhile pyIsSpace) ++
             String.mk (rl.data.dropWhile pyIsSpace)) ++
           (pySplitlines "  foo\n  bar").drop
             (1 + (normalize_lines "\tbar").length))) :=
  apply_fix_normalized_window_reindents "  foo\n  bar" "\tbar" "   baz  q" "d" 1
    (by decide) (by decide) (by decide) (by decide) (by decide)
    (by decide)

/-! ## C10: a whitespace-only target -/

/-- C10 (counterexample): on an empty file, a non-empty whitespace-only
target that is absent verbatim sends `apply_fix` down the normalised branch,
where the vacuous empty-window match at position 0 makes
`code_lines[first_line_idx]` raise `IndexError` (`none` here) — the claimed
insertion behaviour does not happen for every `current_code`. -/
theorem apply_fix_whitespace_target_empty_file_raises :
    pyIn "\t" "" = false ∧ apply_fix "" ⟨"\t", "x", "d"⟩ = none := by
  exact ⟨rfl, rfl⟩

/-- The splitter returns a non-empty list of lines on non-empty input. -/
theorem splitlinesAux_ne_nil :
    ∀ (l acc : List Char), l ≠ [] ∨ acc ≠ [] → splitlinesAux l acc ≠ [] := by
  intro l
  induction l with
  | nil =>
      intro acc h
      rcases h with h | h
      · exact absurd rfl h
      · simp only [splitlinesAux]
        rw [if_neg (by simpa using h)]
        simp
  | cons c rest ih =>
      intro acc _
      cases rest with
      | nil =>
          rw [splitlinesAux.eq_3]
          by_cases hbr : pyIsLineBreak c
          · simp [hbr]
          · rw [if_neg hbr, splitlinesAux.eq_1]
            rw [if_neg (by simp)]
            simp
      | cons c2 rest2 =>
          rw [splitlinesAux.eq_2]
          by_cases hbr : pyIsLineBreak c
          · simp [hbr]
          · rw [if_neg hbr]
            exact ih (c :: acc) (Or.inl (by simp))

/-- Every character of every line produced by the splitter comes from the
input or from the accumulator. -/
theorem splitlinesAux_space :
    ∀ (n : Nat) (l acc : List Char), l.length ≤ n →
      (∀ c ∈ l, pyIsSpace c = true) → (∀ c ∈ acc, pyIsSpace c = true) →
      ∀ s ∈ splitlinesAux l acc, ∀ c ∈ s.data, pyIsSpace c = true := by
  intro n
  induction n with
  | zero =>
      intro l acc hlen hl hacc s hs c hc
      have : l = [] := List.eq_nil_of_length_eq_zero (by omega)
      subst this
      rw [splitlinesAux.eq_1] at hs
      by_cases ha : acc.isEmpty
      · rw [if_pos ha] at hs; simp at hs
      · rw [if_neg ha] at hs
        simp only [List.mem_singleton] at hs
        subst hs
        exact hacc c (by simpa using hc)
  | succ n ih =>
      intro l acc hlen hl hacc s hs c hc
      cases l with
      | nil =>
          rw [splitlinesAux.eq_1] at hs
          by_cases ha : acc.isEmpty
          · rw [if_pos ha] at hs; simp at hs
          · rw [if_neg ha] at hs
            simp only [List.mem_singleton] at hs
            subst hs
            exact hacc c (by simpa using hc)
      | cons a rest =>
          cases rest with
          | nil =>
              rw [splitlinesAux.eq_3] at hs
              by_cases hbr : pyIsLineBreak a
              · rw [if_pos hbr] at hs
                simp only [List.mem_singleton] at hs
                subst hs
                exact hacc c (by simpa using hc)
              · rw [if_neg hbr] at hs
                exact ih [] (a :: acc) (by simp)
                  (by simp)
                  (by
                    intro x hx
                    rcases List.mem_cons.mp hx with h1 | h2
                    · exact h1 ▸ hl a (by simp)
                    · exact hacc x h2)
                  s hs c hc
          | cons a2 rest2 =>
              rw [splitlinesAux.eq_2] at hs
              by_cases hbr : pyIsLineBreak a
              · rw [if_pos hbr] at hs
                rcases List.mem_cons.mp hs with h1 | h2
                · subst h1
                  exact hacc c (by simpa using hc)
                · by_cases hcrlf : a = '\x0d' ∧ a2 = '\n'
                  · rw [if_pos hcrlf] at h2
                    exact ih rest2 [] (by simp at hlen ⊢; omega)
                      (fun x hx => hl x (by simp [hx]))
                      (by simp) s h2 c hc
                  · rw [if_neg hcrlf] at h2
                    exact ih (a2 :: rest2) [] (by simp at hlen ⊢; omega)
                      (fun x hx => hl x (by simp at hx ⊢; tauto))
                      (by simp) s h2 c hc
              · rw [if_neg hbr] at hs
                exact ih (a2 :: rest2) (a :: acc) (by simp at hlen ⊢; omega)
                  (fun x hx => hl x (by simp at hx ⊢; tauto))
                  (by
                    intro x hx
                    rcases List.mem_cons.mp hx with h1 | h2
                    · exact h1 ▸ hl a (by simp)
                    · exact hacc x h2)
                  s hs c hc

/-- Stripping a whitespace-only line yields the empty string. -/
theorem pyStrip_eq_empty_of_space (s : String)
    (h : ∀ c ∈ s.data, pyIsSpace c = true) : pyStrip s = "" := by
  unfold pyStrip
  rw [List.dropWhile_eq_nil_iff.mpr h]
  rfl

/-- A whitespace-only target normalises to no significant lines at all. -/
theorem normalize_lines_nil_of_space (t : String)
    (h : ∀ c ∈ t.data, pyIsSpace c = true) : normalize_lines t = [] := by
  unfold normalize_lines
  rw [List.filter_eq_nil_iff]
  intro s hs
  obtain ⟨s', hs', rfl⟩ := List.mem_map.mp hs
  have hsp : ∀ c ∈ s'.data, pyIsSpace c = true :=
    splitlinesAux_space t.data.length t.data [] (Nat.le_refl _) h (by simp) s' hs'
  simp [pyStrip_eq_empty_of_space s' hsp]

/-- With no significant target lines, the empty window matches vacuously at
position 0. -/
theorem findWindow_nil_target (cl : List String) : findWindow cl [] = some 0 := by
  show findWindowAux cl [] 0 (cl.length + 1 - List.length []) = some 0
  rw [List.length_nil, Nat.sub_zero, findWindowAux]
  rw [if_pos (by simp [windowAt])]

/-- C10 (amended): for every *non-empty* `current_code` and a non-empty,
whitespace-only `original_code` absent verbatim (with non-empty
`fixed_code`), the normalised target has zero significant lines, the empty
window matches vacuously at position 0, and the replacement lines —
re-indented with the leading-whitespace prefix of the file's first line —
are inserted before the first line, no line being removed.  (On an empty
`current_code` the code instead raises `IndexError`.) -/
theorem apply_fix_whitespace_target_inserts
    (code t r d : String)
    (hcode : code ≠ "") (ht : t ≠ "")
    (hws : ∀ c ∈ t.data, pyIsSpace c = true)
    (hexact : pyIn t code = false) (hr : r ≠ "") :
    ∃ first_line rest, pySplitlines code = first_line :: rest ∧
      apply_fix code ⟨t, r, d⟩ =
        some (String.intercalate "\n"
          ((pySplitlines r).map (fun rl =>
            String.mk (first_line.data.takeWhile pyIsSpace) ++
            String.mk (rl.data.dropWhile pyIsSpace)) ++
          pySplitlines code)) := by
  have hcl : pySplitlines code ≠ [] := by
    apply splitlinesAux_ne_nil
    left
    intro hnil
    exact hcode (String.ext hnil)
  obtain ⟨first_line, rest, hsplit⟩ := List.exists_cons_of_ne_nil hcl
  refine ⟨first_line, rest, hsplit, ?_⟩
  have htl : normalize_lines t = [] := normalize_lines_nil_of_space t hws
  unfold apply_fix
  dsimp only
  rw [if_neg (by simp [ht, hr]), if_neg (by simp [hexact]), htl,
    findWindow_nil_target]
  dsimp only
  rw [hsplit]
  dsimp only [List.get?]
  simp only [base_indent_of_eq_takeWhile, List.length_nil, Nat.add_zero,
    List.take_zero, List.drop_zero, List.nil_append]
  rfl

/-- Witness for the amended C10: a whitespace-only target on a two-line file
inserts the re-indented replacement before the first line. -/
theorem apply_fix_whitespace_target_inserts_witness :
    ∃ first_line rest, pySplitlines "a\nb" = first_line :: rest ∧
      apply_fix "a\nb" ⟨" ", " x\ny", "d"⟩ =
        some (String.intercalate "\n"
          ((pySplitlines " x\ny").map (fun rl =>
            String.mk (first_line.data.takeWhile pyIsSpace) ++
            String.mk (rl.data.dropWhile pyIsSpace)) ++
          pySplitlines "a\nb")) :=
  apply_fix_whitespace_target_inserts "a\nb" " " " x\ny" "d"
    (by decide) (by decide) (by decide) (by decide) (by decide)

/-! ## Orchestrator lemmas -/

/-- The initial-pass return string is a success outcome. -/
theorem isSuccess_passed : isSuccess "Test passed (No healing needed)." = true := rfl

/-- The budget-exhausted return string is not a success outcome. -/
theorem isSuccess_failed : isSuccess "Healing failed to make test pass." = false := rfl

/-- Every healed-session return string is a success outcome, whatever the
hypothesis text appended to it. -/
theorem isSuccess_healed (hyp : String) :
    isSuccess ("\nSUCCESS: Test healed! \nReasoning: " ++ hyp) = true := by
  unfold isSuccess
  apply Bool.or_eq_true_iff.mpr
  right
  rw [List.isPrefixOf_iff_prefix, String.data_append]
  exact List.IsPrefix.trans ⟨": Test healed! \nReasoning: ".data, rfl⟩
    (List.prefix_append _ _)

/-- The missing-file return string is not a success outcome. -/
theorem isSuccess_file_not_found (p : String) :
    isSuccess ("Error: File not found " ++ p) = false := by
  unfold isSuccess
  apply Bool.or_eq_false_iff.mpr
  refine ⟨?_, ?_⟩
  · apply decide_eq_false
    intro h
    have := congrArg (fun s => s.data.head?) h
    simp [String.data_append] at this
  · rw [String.data_append]
    rfl

/-- Core invariant of the healing loop: the loop consumes at most one runner
invocation per remaining attempt, runner invocations are consumed in order
starting at the current count, and the loop returns a success outcome
exactly when one of the verification runs it performed exited 0. -/
theorem healLoop_spec (vp : String) (runs : Nat → RunResult)
    (llm : Nat → Except String LLMData) :
    ∀ (remaining attempt : Nat) (cur : String) (result : RunResult)
      (tr : SessionTrace) (msg : String) (tr' : SessionTrace),
      healLoop vp runs llm remaining attempt cur result tr = .ok (msg, tr') →
      tr'.runCount ≤ tr.runCount + remaining ∧
      (isSuccess msg = true ↔
        ∃ k, tr.runCount ≤ k ∧ k < tr'.runCount ∧ (runs k).returncode = 0) := by
  intro remaining
  induction remaining with
  | zero =>
      intro attempt cur result tr msg tr' h
      simp only [healLoop, Except.ok.injEq, Prod.mk.injEq] at h
      obtain ⟨hmsg, htr⟩ := h
      subst hmsg
      subst htr
      dsimp only
      refine ⟨by omega, ?_⟩
      rw [isSuccess_failed]
      constructor
      · intro hcon; exact absurd hcon (by simp)
      · rintro ⟨k, h1, h2, _⟩
        omega
  | succ n ih =>
      intro attempt cur result tr msg tr' h
      simp only [healLoop] at h
      cases happly : apply_fix cur
          (analyze_and_plan vp cur (gather_evidence result) (llm attempt)).action_taken with
      | none => rw [happly] at h; cases h
      | some new_code =>
          rw [happly] at h
          dsimp only at h
          by_cases hnoop : new_code = cur
          · rw [if_pos hnoop] at h
            have hspec := ih (attempt + 1) cur result _ msg tr' h
            dsimp only at hspec
            exact ⟨by omega, hspec.2⟩
          · rw [if_neg hnoop] at h
            by_cases hrc : (runs tr.runCount).returncode = 0
            · rw [if_pos hrc] at h
              simp only [Except.ok.injEq, Prod.mk.injEq] at h
              obtain ⟨hmsg, htr⟩ := h
              subst hmsg
              subst htr
              dsimp only
              refine ⟨by omega, ?_⟩
              rw [isSuccess_healed]
              constructor
              · intro _
                exact ⟨tr.runCount, Nat.le_refl _, by omega, hrc⟩
              · intro _
                rfl
            · rw [if_neg hrc] at h
              have hspec := ih (attempt + 1) new_code (runs tr.runCount) _ msg tr' h
              dsimp only at hspec
              refine ⟨by omega, ?_⟩
              rw [hspec.2]
              constructor
              · rintro ⟨k, h1, h2, h3⟩
                exact ⟨k, by omega, h2, h3⟩
              · rintro ⟨k, h1, h2, h3⟩
                refine ⟨k, ?_, h2, h3⟩
                rcases Nat.eq_or_lt_of_le h1 with heq | hlt
                · exact absurd (heq ▸ h3) hrc
                · omega

/-! ## C2: run bound, and success exactly on a passing run -/

/-- C2: whenever `attempt_healing` returns (rather than propagating an
exception), the external test runner was invoked at most
`max_retries + 1` times, and the returned outcome is a success outcome if
and only if one of the runs the session performed exited with status 0. -/
theorem attempt_healing_run_bound_and_success
    (cwd test_file : String) (fileExists : String → Bool) (fileContent : String)
    (runs : Nat → RunResult) (llm : Nat → Except String LLMData)
    (max_retries : Nat) (msg : String) (tr : SessionTrace)
    (h : attempt_healing cwd test_file fileExists fileContent runs llm max_retries
      = .ok (msg, tr)) :
    tr.runCount ≤ max_retries + 1 ∧
    (isSuccess msg = true ↔ ∃ k, k < tr.runCount ∧ (runs k).returncode = 0) := by
  unfold attempt_healing at h
  cases hval : validate_file_path cwd test_file none with
  | error e => rw [hval] at h; cases h
  | ok vp =>
      rw [hval] at h
      dsimp only at h
      by_cases hex : fileExists vp
      · rw [if_neg (by simp [hex])] at h
        by_cases hrc : (runs 0).returncode = 0
        · rw [if_pos hrc] at h
          simp only [Except.ok.injEq, Prod.mk.injEq] at h
          obtain ⟨hmsg, htr⟩ := h
          subst hmsg
          subst htr
          dsimp only
          refine ⟨by omega, ?_⟩
          rw [isSuccess_passed]
          constructor
          · intro _
            exact ⟨0, by omega, hrc⟩
          · intro _
            rfl
        · rw [if_neg hrc] at h
          have hspec := healLoop_spec vp runs llm max_retries 0 fileContent (runs 0) _ msg tr h
          dsimp only at hspec
          refine ⟨by omega, ?_⟩
          rw [hspec.2]
          constructor
          · rintro ⟨k, h1, h2, h3⟩
            exact ⟨k, h2, h3⟩
          · rintro ⟨k, h2, h3⟩
            refine ⟨k, ?_, h2, h3⟩
            cases k with
            | zero => exact absurd h3 hrc
            | succ m => omega
      · rw [if_pos (by simp [hex])] at h
        simp only [Except.ok.injEq, Prod.mk.injEq] at h
        obtain ⟨hmsg, htr⟩ := h
        subst hmsg
        subst htr
        dsimp only
        refine ⟨by omega, ?_⟩
        rw [isSuccess_file_not_found]
        constructor
        · intro hcon; exact absurd hcon (by simp)
        · rintro ⟨k, h2, _⟩
          omega

/-- Witness for C2: an initially passing file terminates after one run with
a success outcome. -/
theorem attempt_healing_run_bound_and_success_witness :
    ∃ tr : SessionTrace,
      attempt_healing "/app" "tests/generated/t.spec.ts" (fun _ => true) "a();"
        (fun _ => ⟨0, "", ""⟩) (fun _ => .error "x") 0
        = .ok ("Test passed (No healing needed).", tr) ∧
      tr.runCount ≤ 0 + 1 ∧
      (isSuccess "Test passed (No healing needed)." = true ↔
        ∃ k, k < tr.runCount ∧
          ((fun _ : Nat => (⟨0, "", ""⟩ : RunResult)) k).returncode = 0) :=
  ⟨_, rfl, attempt_healing_run_bound_and_success "/app" "tests/generated/t.spec.ts"
    (fun _ => true) "a();" (fun _ => ⟨0, "", ""⟩) (fun _ => .error "x") 0 _ _ rfl⟩

/-! ## C3: entry contract and exception behaviour -/

/-- C3 (counterexample): a non-empty path outside the allow-listed
directories makes `attempt_healing` propagate `ValidationError` to its
caller instead of returning — contradicting the claim that a non-existent
file is the only non-returning condition. -/
theorem attempt_healing_raises_outside_allowlist :
    attempt_healing "/app" "/etc/passwd" (fun _ => true) "code"
      (fun _ => ⟨1, "", "e"⟩) (fun _ => .error "x") 1
      = .error (.validationError .outsideAllowed) := rfl

/-- C3 (amended): `attempt_healing` either runs the healing session or, when
path validation succeeds but the validated file does not exist, records an
error step and returns an error message immediately with no runner
invocation; a path failing validation (empty, or resolving outside the
allow-listed directories) instead makes `validate_file_path` raise
`ValidationError`, which `attempt_healing` propagates to its caller. -/
theorem attempt_healing_entry_contract
    (cwd test_file : String) (fileExists : String → Bool) (fileContent : String)
    (runs : Nat → RunResult) (llm : Nat → Except String LLMData) (max_retries : Nat) :
    (∀ e, validate_file_path cwd test_file none = .error e →
      attempt_healing cwd test_file fileExists fileContent runs llm max_retries
        = .error (.validationError e)) ∧
    (∀ vp, validate_file_path cwd test_file none = .ok vp → fileExists vp = false →
      attempt_healing cwd test_file fileExists fileContent runs llm max_retries
        = .ok ("Error: File not found " ++ vp,
            { steps := ["Start", "Error"], fileContent := fileContent })) := by
  refine ⟨?_, ?_⟩
  · intro e he
    unfold attempt_healing
    rw [he]
  · intro vp hvp hex
    unfold attempt_healing
    rw [hvp]
    dsimp only
    rw [if_pos (by simp [hex])]
    rfl

/-- Witness for the amended C3: validation succeeds but the file is missing,
so the session returns the error message with only `Start`/`Error` steps. -/
theorem attempt_healing_entry_contract_witness :
    attempt_healing "/app" "tests/generated/x.spec.ts" (fun _ => false) "c"
      (fun _ => ⟨1, "", "e"⟩) (fun _ => .error "x") 1
      = .ok ("Error: File not found " ++ "/app/tests/generated/x.spec.ts",
          { steps := ["Start", "Error"], fileContent := "c" }) :=
  (attempt_healing_entry_contract "/app" "tests/generated/x.spec.ts" (fun _ => false)
    "c" (fun _ => ⟨1, "", "e"⟩) (fun _ => .error "x") 1).2
    "/app/tests/generated/x.spec.ts" rfl rfl

/-! ## C4: later attempts patch the cumulative state -/

/-- The loop's attempt records always chain: each attempt's `apply_fix`
input is the state left by the previous attempt, and the write history is
exactly the non-no-op patch outputs, in order. -/
theorem healLoop_cumulative (vp : String) (runs : Nat → RunResult)
    (llm : Nat → Except String LLMData) :
    ∀ (remaining attempt : Nat) (cur : String) (result : RunResult)
      (tr : SessionTrace) (msg : String) (tr' : SessionTrace),
      healLoop vp runs llm remaining attempt cur result tr = .ok (msg, tr') →
      ∃ nw, tr'.attempts = tr.attempts ++ nw ∧ cumulativeFrom cur nw = true ∧
        tr'.writes = tr.writes ++ nw.filterMap (fun a => a.wrote) := by
  intro remaining
  induction remaining with
  | zero =>
      intro attempt cur result tr msg tr' h
      simp only [healLoop, Except.ok.injEq, Prod.mk.injEq] at h
      obtain ⟨_, htr⟩ := h
      subst htr
      exact ⟨[], by simp, rfl, by simp⟩
  | succ n ih =>
      intro attempt cur result tr msg tr' h
      simp only [healLoop] at h
      cases happly : apply_fix cur
          (analyze_and_plan vp cur (gather_evidence result) (llm attempt)).action_taken with
      | none => rw [happly] at h; cases h
      | some new_code =>
          rw [happly] at h
          dsimp only at h
          by_cases hnoop : new_code = cur
          · rw [if_pos hnoop] at h
            obtain ⟨nw, hatt, hcum, hwr⟩ := ih (attempt + 1) cur result _ msg tr' h
            dsimp only at hatt hwr
            refine ⟨(⟨cur, none⟩ : AttemptRec) :: nw, ?_, ?_, ?_⟩
            · rw [hatt, List.append_assoc]
              rfl
            · simp [cumulativeFrom, hcum]
            · rw [hwr]
              simp [List.filterMap]
          · rw [if_neg hnoop] at h
            by_cases hrc : (runs tr.runCount).returncode = 0
            · rw [if_pos hrc] at h
              simp only [Except.ok.injEq, Prod.mk.injEq] at h
              obtain ⟨_, htr⟩ := h
              subst htr
              refine ⟨[(⟨cur, some new_code⟩ : AttemptRec)], by simp, ?_, by simp⟩
              simp [cumulativeFrom]
            · rw [if_neg hrc] at h
              obtain ⟨nw, hatt, hcum, hwr⟩ :=
                ih (attempt + 1) new_code (runs tr.runCount) _ msg tr' h
              dsimp only at hatt hwr
              refine ⟨(⟨cur, some new_code⟩ : AttemptRec) :: nw, ?_, ?_, ?_⟩
              · rw [hatt, List.append_assoc]
                rfl
              · simp [cumulativeFrom, hcum]
              · rw [hwr]
                simp [List.filterMap]

/-- C4 (amended): whenever a healing session returns, its attempts form a
cumulative chain starting from the content read from the file — each
attempt's `apply_fix` input is the state left by the previous attempt (the
patched content once a patch has been written), never the original — and
the file writes are exactly the non-no-op patch outputs in order; the loop
never rolls the file back by itself, though a later patch may textually
reproduce earlier content. -/
theorem attempt_healing_cumulative
    (cwd test_file : String) (fileExists : String → Bool) (fileContent : String)
    (runs : Nat → RunResult) (llm : Nat → Except String LLMData)
    (max_retries : Nat) (msg : String) (tr : SessionTrace)
    (h : attempt_healing cwd test_file fileExists fileContent runs llm max_retries
      = .ok (msg, tr)) :
    cumulativeFrom fileContent tr.attempts = true ∧
    tr.writes = tr.attempts.filterMap (fun a => a.wrote) := by
  unfold attempt_healing at h
  cases hval : validate_file_path cwd test_file none with
  | error e => rw [hval] at h; cases h
  | ok vp =>
      rw [hval] at h
      dsimp only at h
      by_cases hex : fileExists vp
      · rw [if_neg (by simp [hex])] at h
        by_cases hrc : (runs 0).returncode = 0
        · rw [if_pos hrc] at h
          simp only [Except.ok.injEq, Prod.mk.injEq] at h
          obtain ⟨_, htr⟩ := h
          subst htr
          exact ⟨rfl, rfl⟩
        · rw [if_neg hrc] at h
          obtain ⟨nw, hatt, hcum, hwr⟩ :=
            healLoop_cumulative vp runs llm max_retries 0 fileContent (runs 0) _ msg tr h
          dsimp only at hatt hwr
          rw [List.nil_append] at hatt hwr
          rw [hatt, hwr]
          exact ⟨hcum, rfl⟩
      · rw [if_pos (by simp [hex])] at h
        simp only [Except.ok.injEq, Prod.mk.injEq] at h
        obtain ⟨_, htr⟩ := h
        subst htr
        exact ⟨rfl, rfl⟩

/-- Witness for the amended C4: a failing session whose only attempt is a
no-op still satisfies the cumulative chain. -/
theorem attempt_healing_cumulative_witness :
    ∃ msg tr,
      attempt_healing "/app" "tests/generated/t.spec.ts" (fun _ => true) "zzz"
        (fun _ => ⟨1, "", "e"⟩) (fun _ => .error "x") 1 = .ok (msg, tr) ∧
      cumulativeFrom "zzz" tr.attempts = true ∧
      tr.writes = tr.attempts.filterMap (fun a => a.wrote) :=
  ⟨_, _, rfl, attempt_healing_cumulative "/app" "tests/generated/t.spec.ts"
    (fun _ => true) "zzz" (fun _ => ⟨1, "", "e"⟩) (fun _ => .error "x") 1 _ _ rfl⟩

/-- The reasoner oracle of the C4 counterexample: the first attempt's patch
replaces `a();` by `b();`, the second proposes the exact inverse. -/
def invertingLLM : Nat → Except String LLMData := fun k =>
  if k = 0 then
    .ok { original_code := .str "a();", fixed_code := .str "b();", description := "swap" }
  else
    .ok { original_code := .str "b();", fixed_code := .str "a();", description := "swap back" }

/-- The runner oracle of the C4 counterexample: every run fails. -/
def alwaysFailingRuns : Nat → RunResult := fun _ => ⟨1, "", "boom"⟩

/-- C4 (counterexample): with an inverse second patch and failing
verifications, the session writes `b();` and then writes `a();` — the file
content after the second non-no-op patch is restored to the session's
original content, so the file content is not *never* restored to an earlier
content. -/
theorem attempt_healing_restores_earlier_content :
    sessionWrites (attempt_healing "/app" "tests/generated/t.spec.ts" (fun _ => true)
      "a();" alwaysFailingRuns invertingLLM 2) = ["b();", "a();"] ∧
    ("b();" : String) ≠ "a();" := by
  exact ⟨rfl, by decide⟩

end Healer
